import Mathlib

/-!
Verification development for a reliable byte-stream transfer facility built
on UDP-style datagrams (repository `Custom_Transfer_Protocol`).

The definitions below are a shallow embedding of the Python source:

* `src/backend/packet.py`     — packet codec (CRC-32 checksum, 13-byte header)
* `src/backend/congestion.py` — TCP-Tahoe style congestion controller
* `src/backend/server.py`     — receiver buffer, stop-and-wait / GBN / SR
                                data handlers, FIN handling
* `src/backend/client.py`     — sender: connect handshake, stop-and-wait send
                                loop, retransmission, transfer completion
* `src/backend/reliability/selective_repeat.py` — selective-repeat send window

Machine integers are modelled as `Nat` with explicit bounds; Python `float`
fields are modelled as `ℚ` (the congestion arithmetic is exact in the ranges
exercised); Python dictionaries are modelled as insertion-ordered association
lists with in-place update, matching CPython `dict` semantics; a Python
function that can raise an uncaught exception is modelled with a dedicated
result constructor.
-/

namespace CTP

/-! ## Byte-level helpers (struct.pack / struct.unpack '!IIBHH') -/

/-- Big-endian 2-byte encoding of a 16-bit value (`struct.pack '!H'`). -/
def be16 (n : Nat) : List Nat := [n / 256 % 256, n % 256]

/-- Big-endian 4-byte encoding of a 32-bit value (`struct.pack '!I'`). -/
def be32 (n : Nat) : List Nat :=
  [n / 16777216 % 256, n / 65536 % 256, n / 256 % 256, n % 256]

/-- Byte at index `i` of a datagram (0 when out of range). -/
def rd8 (d : List Nat) (i : Nat) : Nat := d.getD i 0

/-- Big-endian 16-bit read at offset `i` (`struct.unpack '!H'`). -/
def rd16 (d : List Nat) (i : Nat) : Nat := rd8 d i * 256 + rd8 d (i + 1)

/-- Big-endian 32-bit read at offset `i` (`struct.unpack '!I'`). -/
def rd32 (d : List Nat) (i : Nat) : Nat := rd16 d i * 65536 + rd16 d (i + 2)

/-! ## CRC-32 (zlib.crc32), reflected polynomial 0xEDB88320 -/

/-- One shift step of the bitwise (LSB-first) CRC-32. -/
def crc32Round (c : Nat) : Nat :=
  if c % 2 = 1 then (c / 2) ^^^ 0xEDB88320 else c / 2

/-- Fold one input byte into the running CRC (xor into the low byte,
then eight shift steps). -/
def crc32Byte (c b : Nat) : Nat := crc32Round^[8] (c ^^^ (b % 256))

/-- `zlib.crc32` over a byte list (initial value 0xFFFFFFFF, final inversion). -/
def crc32 (l : List Nat) : Nat :=
  (l.foldl crc32Byte 0xFFFFFFFF) ^^^ 0xFFFFFFFF

/-! ## Packet (src/backend/packet.py) -/

/-- Flag constants from packet.py. -/
def FLAG_SYN : Nat := 0x01

/-- ACK flag bit. -/
def FLAG_ACK : Nat := 0x02

/-- FIN flag bit. -/
def FLAG_FIN : Nat := 0x04

/-- DATA flag bit. -/
def FLAG_DATA : Nat := 0x08

/-- `HEADER_SIZE = struct.calcsize('!IIBHH')`. -/
def HEADER_SIZE : Nat := 13

/-- `MAX_DATA_SIZE`. -/
def MAX_DATA_SIZE : Nat := 1024

/-- The `Packet` dataclass: seq_no, ack_no, flags, window, data, checksum.
Field values are the Python ints held by the dataclass; payload bytes are
`Nat` values below 256. -/
structure Packet where
  seq_no : Nat
  ack_no : Nat
  flags : Nat
  window : Nat
  data : List Nat
  checksum : Nat
deriving DecidableEq

/-- Well-formed packet: every field fits the wire format `!IIBHH` and the
payload respects `MAX_DATA_SIZE` (the dataclass raises in `__post_init__`
otherwise, and `struct.pack` raises on out-of-range fields). -/
def Packet.Wf (p : Packet) : Prop :=
  p.seq_no < 4294967296 ∧ p.ack_no < 4294967296 ∧ p.flags < 256 ∧
    p.window < 65536 ∧ p.data.length ≤ MAX_DATA_SIZE ∧ ∀ b ∈ p.data, b < 256

instance (p : Packet) : Decidable p.Wf := by
  unfold Packet.Wf; infer_instance

/-- `Packet.is_syn`. -/
def Packet.is_syn (p : Packet) : Bool := p.flags &&& FLAG_SYN ≠ 0

/-- `Packet.is_ack`. -/
def Packet.is_ack (p : Packet) : Bool := p.flags &&& FLAG_ACK ≠ 0

/-- `Packet.is_fin`. -/
def Packet.is_fin (p : Packet) : Bool := p.flags &&& FLAG_FIN ≠ 0

/-- `Packet.is_data`. -/
def Packet.is_data (p : Packet) : Bool := p.flags &&& FLAG_DATA ≠ 0

/-- `Packet.calculate_checksum`: CRC-32 of the header-without-checksum
(11 bytes, network byte order) concatenated with the payload, truncated to
the low 16 bits. -/
def Packet.calculate_checksum (p : Packet) : Nat :=
  crc32 (be32 p.seq_no ++ be32 p.ack_no ++ [p.flags % 256] ++ be16 p.window
    ++ p.data) &&& 0xFFFF

/-- `Packet.to_bytes`. The Python method first assigns
`self.checksum = self.calculate_checksum()` (a mutation of the packet) and
then emits `header + data`; we return both the mutated packet and the
emitted bytes. -/
def Packet.to_bytes (p : Packet) : Packet × List Nat :=
  let c := p.calculate_checksum
  ({ p with checksum := c },
    be32 p.seq_no ++ be32 p.ack_no ++ [p.flags % 256] ++ be16 p.window
      ++ be16 c ++ p.data)

/-- Result of `Packet.from_bytes`. `malformed` is the `None` return for a
short datagram; `error` marks an exception escaping the method (the
`ValueError` raised by `__post_init__` for an oversized payload is not
caught by the `except struct.error` clause). -/
inductive DecodeResult where
  | ok (p : Packet)
  | malformed
  | error
deriving DecidableEq

/-- `Packet.from_bytes`: reject datagrams shorter than the 13-byte header;
otherwise unpack the header, take everything past byte 13 as payload, and
construct the dataclass — whose `__post_init__` raises (uncaught) when the
payload exceeds `MAX_DATA_SIZE`. -/
def from_bytes (d : List Nat) : DecodeResult :=
  if d.length < HEADER_SIZE then .malformed
  else
    let payload := d.drop HEADER_SIZE
    if payload.length > MAX_DATA_SIZE then .error
    else .ok ⟨rd32 d 0, rd32 d 4, rd8 d 8, rd16 d 9, payload, rd16 d 11⟩

/-- `Packet.verify_checksum`. -/
def Packet.verify_checksum (p : Packet) : Bool :=
  p.checksum == p.calculate_checksum

/-- `create_syn_packet`. -/
def create_syn_packet (seq window : Nat) : Packet :=
  ⟨seq, 0, FLAG_SYN, window, [], 0⟩

/-- `create_syn_ack_packet`. -/
def create_syn_ack_packet (seq ack window : Nat) : Packet :=
  ⟨seq, ack, FLAG_SYN ||| FLAG_ACK, window, [], 0⟩

/-- `create_ack_packet`. -/
def create_ack_packet (seq ack window : Nat) : Packet :=
  ⟨seq, ack, FLAG_ACK, window, [], 0⟩

/-- `create_data_packet`. -/
def create_data_packet (seq : Nat) (data : List Nat) (window : Nat) : Packet :=
  ⟨seq, 0, FLAG_DATA, window, data, 0⟩

/-- `create_fin_packet`. -/
def create_fin_packet (seq : Nat) : Packet :=
  ⟨seq, 0, FLAG_FIN, 0, [], 0⟩

/-- `create_fin_ack_packet`. -/
def create_fin_ack_packet (seq ack : Nat) : Packet :=
  ⟨seq, ack, FLAG_FIN ||| FLAG_ACK, 0, [], 0⟩

/-! ## Insertion-ordered dictionaries (CPython `dict` semantics) -/

/-- Lookup in an insertion-ordered association list (`d[k]` / `k in d`). -/
def alookup {α : Type} : List (Nat × α) → Nat → Option α
  | [], _ => none
  | (k0, v0) :: rest, k => if k0 = k then some v0 else alookup rest k

/-- `d[k] = v` on a CPython dict: update in place when the key exists,
append otherwise (insertion order is preserved). -/
def ainsert {α : Type} : List (Nat × α) → Nat → α → List (Nat × α)
  | [], k, v => [(k, v)]
  | (k0, v0) :: rest, k, v =>
    if k0 = k then (k, v) :: rest else (k0, v0) :: ainsert rest k v

/-- Keys of a dict, in insertion order. -/
def keysOf {α : Type} (d : List (Nat × α)) : List Nat := d.map Prod.fst

/-- `while x in s: x += 1` — advance past a finite set of naturals.
Used by `ReceiverBuffer.add_packet` (on `expected_seq`) and by
`SRWindow.mark_acked` (on `base`). -/
def advancePast (s : Finset Nat) (b : Nat) : Nat :=
  if b ∈ s then advancePast s (b + 1) else b
termination_by s.sup id + 1 - b
decreasing_by
  have hb : b ≤ s.sup id := Finset.le_sup (f := id) (by assumption)
  omega

/-! ## Receiver buffer (src/backend/server.py, ReceiverBuffer) -/

/-- `ReceiverBuffer`: `expected_seq` and the `received_data` dict
(seq_no ↦ payload). `max_buffer_size` is the dataclass default 1024 and is
never changed by the program, so it is kept as a literal below. -/
structure ReceiverBuffer where
  expected_seq : Nat
  received_data : List (Nat × List Nat)
deriving DecidableEq

/-- `ReceiverBuffer.add_packet`: duplicates (seq < expected) are rejected;
an in-order packet is stored and `expected_seq` advances past every
contiguously buffered sequence; an out-of-order packet is buffered only if
the buffer holds fewer than `max_buffer_size` (1024) entries. Returns the
buffer, `is_in_order`, and the expected sequence for the ACK. -/
def add_packet (b : ReceiverBuffer) (seq : Nat) (data : List Nat) :
    ReceiverBuffer × Bool × Nat :=
  if seq < b.expected_seq then (b, false, b.expected_seq)
  else if seq = b.expected_seq then
    let d := ainsert b.received_data seq data
    let e := advancePast (keysOf d).toFinset b.expected_seq
    (⟨e, d⟩, true, e)
  else if b.received_data.length < 1024 then
    (⟨b.expected_seq, ainsert b.received_data seq data⟩, false, b.expected_seq)
  else (b, false, b.expected_seq)

/-- `ReceiverBuffer.get_ordered_data`: concatenate the buffered payloads in
ascending key order (`for i in sorted(self.received_data.keys())`). -/
def get_ordered_data (b : ReceiverBuffer) : List Nat :=
  (((keysOf b.received_data).insertionSort (· ≤ ·)).map
    (fun k => (alookup b.received_data k).getD [])).flatten

/-- `UDPServer._handle_stop_wait`: on `seq == expected_seq` store the
payload, increment `expected_seq` and ACK the new value; on any other
arrival leave the buffer unchanged and re-ACK the current `expected_seq`.
Returns the buffer, `is_in_order`, the expected value, and the list of ACK
packets transmitted (the handler always sends exactly one). -/
def handle_stop_wait (b : ReceiverBuffer) (p : Packet) :
    ReceiverBuffer × Bool × Nat × List Packet :=
  if p.seq_no = b.expected_seq then
    let b2 : ReceiverBuffer :=
      ⟨b.expected_seq + 1, ainsert b.received_data p.seq_no p.data⟩
    (b2, true, b2.expected_seq, [create_ack_packet 0 b2.expected_seq 1])
  else
    (b, false, b.expected_seq, [create_ack_packet 0 b.expected_seq 1])

/-- `UDPServer._handle_fin`: unconditionally commit the reassembled bytes
(`get_ordered_data`) and reply FIN-ACK with `ack_no = seq + 1`. Returns the
FIN-ACK packet and the bytes written to the output file. -/
def handle_fin (b : ReceiverBuffer) (p : Packet) : Packet × List Nat :=
  (create_fin_ack_packet 0 (p.seq_no + 1), get_ordered_data b)

/-! ## Selective Repeat send window
(src/backend/reliability/selective_repeat.py, SRWindow) -/

/-- `SRWindow`: base, next_seq, window_size and the set of individually
acked sequence numbers. -/
structure SRWindow where
  base : Nat
  next_seq : Nat
  window_size : Nat
  acked : Finset Nat
deriving DecidableEq

/-- `SRWindow.can_send`. -/
def SRWindow.can_send (w : SRWindow) : Bool :=
  w.next_seq < w.base + w.window_size

/-- `SRWindow.mark_acked`: add `seq_no` to the acked set (no range check),
then advance `base` while it is in the acked set. Nothing is ever removed
from the acked set. -/
def SRWindow.mark_acked (w : SRWindow) (seq : Nat) : SRWindow :=
  let a := insert seq w.acked
  { w with acked := a, base := advancePast a w.base }

/-! ## Congestion controller (src/backend/congestion.py) -/

/-- `CongestionController` dataclass. Python floats are modelled as `ℚ`;
the `stats_history` ring buffer and callback hooks are pure observability
and are not modelled. -/
structure CongestionController where
  cwnd : ℚ
  ssthresh : ℚ
  min_cwnd : ℚ
  max_cwnd : ℚ
  enabled : Bool
  srtt : ℚ
  rttvar : ℚ
  rto : ℚ
  packets_in_flight : Nat
  acks_received_in_window : Nat
deriving DecidableEq

/-- The controller as constructed by the client:
`CongestionController(enabled=True)` with dataclass defaults. -/
def ccInit (en : Bool) : CongestionController :=
  ⟨1, 64, 1, 1024, en, 0, 0, 1, 0, 0⟩

/-- `CongestionController._update_rtt` (Jacobson/Karels, α=1/8, β=1/4,
`rto = max(0.2, min(srtt + 4*rttvar, 60))`). -/
def update_rtt (c : CongestionController) (r : ℚ) : CongestionController :=
  let c1 :=
    if c.srtt = 0 then { c with srtt := r, rttvar := r / 2 }
    else
      { c with
        rttvar := (3 / 4) * c.rttvar + (1 / 4) * |c.srtt - r|,
        srtt := (7 / 8) * c.srtt + (1 / 8) * r }
  { c1 with rto := max (1 / 5) (min (c1.srtt + 4 * c1.rttvar) 60) }

/-- The `if rtt_sample is not None` step of `on_ack_received`. -/
def applyRtt (c : CongestionController) (rtt : Option ℚ) :
    CongestionController :=
  match rtt with
  | none => c
  | some r => update_rtt c r

/-- The cwnd-growth step of `on_ack_received`: grow by 1 in Slow Start
(`cwnd < ssthresh`), by `1/cwnd` in Congestion Avoidance, clamped at
`max_cwnd`. -/
def growCwnd (c : CongestionController) : CongestionController :=
  if c.cwnd < c.ssthresh then
    { c with cwnd := min (c.cwnd + 1) c.max_cwnd }
  else
    { c with cwnd := min (c.cwnd + 1 / c.cwnd) c.max_cwnd }

/-- `CongestionController.on_ack_received`: no-op when disabled; update the
RTT estimate when a sample is given; then grow `cwnd`; decrement
`packets_in_flight` (floor 0) and count the ACK. -/
def on_ack_received (c : CongestionController) (rtt : Option ℚ) :
    CongestionController :=
  if c.enabled = false then c
  else
    let c2 := growCwnd (applyRtt c rtt)
    { c2 with
      packets_in_flight := c2.packets_in_flight - 1,
      acks_received_in_window := c2.acks_received_in_window + 1 }

/-- `CongestionController.on_timeout`: `ssthresh = max(cwnd/2, 2)`,
`cwnd = min_cwnd`. -/
def on_timeout (c : CongestionController) : CongestionController :=
  if c.enabled = false then c
  else
    { c with
      ssthresh := max (c.cwnd / 2) 2,
      cwnd := c.min_cwnd,
      acks_received_in_window := 0 }

/-- `CongestionController.on_triple_duplicate_ack`. -/
def on_triple_duplicate_ack (c : CongestionController) :
    CongestionController :=
  if c.enabled = false then c
  else
    let s := max (c.cwnd / 2) 2
    { c with ssthresh := s, cwnd := s + 3 }

/-- `CongestionController.on_packet_sent`. -/
def on_packet_sent (c : CongestionController) : CongestionController :=
  { c with packets_in_flight := c.packets_in_flight + 1 }

/-- `CongestionController.reset`. -/
def ccReset (c : CongestionController) : CongestionController :=
  { c with
    cwnd := c.min_cwnd, ssthresh := 64, srtt := 0, rttvar := 0, rto := 1,
    packets_in_flight := 0, acks_received_in_window := 0 }

/-- States of the controller reachable from the client's construction
`CongestionController(enabled=True)` through its public operations
(`configure` may toggle `enabled`). -/
inductive CCReachable : CongestionController → Prop where
  | start : CCReachable (ccInit true)
  | ack (r : Option ℚ) {c} : CCReachable c → CCReachable (on_ack_received c r)
  | timeout {c} : CCReachable c → CCReachable (on_timeout c)
  | tripleDup {c} : CCReachable c → CCReachable (on_triple_duplicate_ack c)
  | sent {c} : CCReachable c → CCReachable (on_packet_sent c)
  | reset {c} : CCReachable c → CCReachable (ccReset c)
  | setEnabled (b : Bool) {c} : CCReachable c →
      CCReachable { c with enabled := b }

/-- Numeric invariant maintained by every reachable controller state:
the dataclass constants are fixed (`min_cwnd = 1`, `max_cwnd = 1024`) and
`cwnd ∈ [1, 1024]`, `ssthresh ∈ [2, 1024]`. -/
def CCInv (c : CongestionController) : Prop :=
  c.min_cwnd = 1 ∧ c.max_cwnd = 1024 ∧ 1 ≤ c.cwnd ∧ c.cwnd ≤ 1024 ∧
    2 ≤ c.ssthresh ∧ c.ssthresh ≤ 1024

/-! ## Client (src/backend/client.py) -/

/-- `TransferState` enum. -/
inductive TransferState where
  | idle
  | connecting
  | connected
  | transferring
  | closing
  | completed
  | error
deriving DecidableEq

/-- `protocol_mode` values. -/
inductive Mode where
  | stop_wait
  | go_back_n
  | selective_repeat
deriving DecidableEq

/-- `PacketInfo` dataclass: the framed packet, last send time,
retransmission count and acked flag. -/
structure PacketInfo where
  packet : Packet
  send_time : ℚ
  retransmissions : Nat
  acked : Bool
deriving DecidableEq

/-- The slice of `UDPClient` state touched by `_retransmit_packet`. -/
structure ClientState where
  state : TransferState
  protocol_mode : Mode
  sent_packets : List (Nat × PacketInfo)
  stats_retransmissions : Nat
  stats_packets_dropped : Nat
deriving DecidableEq

/-- `UDPClient._retransmit_packet`: look the sequence up in
`sent_packets`; if present, bump its retransmission count, stamp a new send
time, count the retransmission, and re-send the stored packet (unless the
simulated loss drops it). There is no retransmission-cap check and no state
transition. Returns the new client state and the datagram put on the wire
(as a packet), if any. -/
def retransmit_packet (st : ClientState) (seq : Nat) (now : ℚ)
    (delivered : Bool) : ClientState × Option Packet :=
  match alookup st.sent_packets seq with
  | none => (st, none)
  | some info =>
    let info2 :=
      { info with retransmissions := info.retransmissions + 1, send_time := now }
    ({ st with
        sent_packets := ainsert st.sent_packets seq info2,
        stats_retransmissions := st.stats_retransmissions + 1,
        stats_packets_dropped :=
          if delivered then st.stats_packets_dropped
          else st.stats_packets_dropped + 1 },
      if delivered then some info2.packet else none)

/-- What the client's single `recvfrom` during `connect` yields: a timeout,
or a datagram that decodes to `none` or to a packet. -/
inductive RecvOutcome where
  | timeout
  | recv (p : Option Packet)
deriving DecidableEq

/-- Observable result of `UDPClient.connect`. -/
structure ConnectResult where
  syns_sent : Nat
  replies : List Packet
  success : Bool
  final : TransferState
deriving DecidableEq

/-- `UDPClient.connect`: send one SYN, then wait once for a reply. A valid
SYN-ACK is answered with an ACK and yields Connected; a receive timeout
yields Error; any other arrival falls through to `return False` with the
state still Connecting. No SYN is ever retransmitted. -/
def connect (w : Nat) (rcv : RecvOutcome) : ConnectResult :=
  match rcv with
  | .timeout => ⟨1, [], false, .error⟩
  | .recv none => ⟨1, [], false, .connecting⟩
  | .recv (some p) =>
    if p.is_syn && p.is_ack then
      ⟨1, [create_ack_packet 0 (p.seq_no + 1) w], true, .connected⟩
    else ⟨1, [], false, .connecting⟩

/-! ## End-to-end stop-and-wait transfer
(`UDPClient._send_stop_wait` + `UDPClient._finish_transfer` against
`UDPServer._handle_stop_wait` / `UDPServer._handle_fin`).

The network is an oracle: a list of booleans consumed one per datagram,
`true` = the datagram reaches its peer and is processed, `false` = it is
dropped (by the loss injector on either side or by the network). The
stop-and-wait sender is strictly sequential, so the distributed execution
is a deterministic function of the byte stream and this schedule. -/

/-- One chunk of `_send_stop_wait`: the retry loop for sequence `i`.
Each iteration sends the DATA packet (first boolean: delivered to the
server, which replies an ACK, or dropped); a delivered ACK (second
boolean) breaks the loop when `ack_no > i`; a missing reply is a timeout,
which counts a retry; 10 failed retries abort. Returns the server buffer
on success (`some`) or `none` on abort, with the unconsumed schedule. -/
def send_chunk_sw (i : Nat) (chunk : List Nat) :
    ReceiverBuffer → Nat → List Bool → Option ReceiverBuffer × List Bool
  | _, _, [] => (none, [])
  | srv, retries, d :: s =>
    if d then
      let r := handle_stop_wait srv (create_data_packet i chunk 1)
      match s with
      | [] => (none, [])
      | a :: s2 =>
        if a then
          if i < r.2.2.1 then (some r.1, s2)
          else send_chunk_sw i chunk r.1 retries s2
        else if retries + 1 < 10 then send_chunk_sw i chunk r.1 (retries + 1) s2
        else (none, s2)
    else if retries + 1 < 10 then send_chunk_sw i chunk srv (retries + 1) s
    else (none, s)

/-- The `for i, chunk in enumerate(self.data_chunks)` loop of
`_send_stop_wait`, threading the server's buffer through. -/
def run_chunks : List (List Nat) → Nat → ReceiverBuffer → List Bool →
    Option ReceiverBuffer × List Bool
  | [], _, srv, s => (some srv, s)
  | c :: cs, i, srv, s =>
    match send_chunk_sw i c srv 0 s with
    | (none, s2) => (none, s2)
    | (some srv2, s2) => run_chunks cs (i + 1) srv2 s2

/-- The association list `[(i, c₀), (i+1, c₁), …]` — the contents of the
server's `received_data` dict after chunks `c₀, c₁, …` have been accepted
in order starting at sequence `i`. -/
def tagFrom : Nat → List (List Nat) → List (Nat × List Nat)
  | _, [] => []
  | i, c :: cs => (i, c) :: tagFrom (i + 1) cs

/-- Outcome of a whole stop-and-wait transfer: the sender's final state,
the boolean returned by `send_file`, and the file committed by the server
on FIN (`none` when the server never processed a FIN). -/
structure SWResult where
  senderState : TransferState
  ok : Bool
  file : Option (List Nat)
deriving DecidableEq

/-- A full stop-and-wait transfer of `chunks` under delivery schedule
`sched`, starting from a fresh server buffer. On abort the sender enters
Error and returns False. Otherwise `_finish_transfer` sends the FIN (next
schedule entry: processed by the server, which commits
`get_ordered_data`, or lost, in which case no file is ever written); the
sender transitions to Completed whether or not the FIN-ACK arrives. -/
def run_stop_wait (chunks : List (List Nat)) (sched : List Bool) : SWResult :=
  match run_chunks chunks 0 ⟨0, []⟩ sched with
  | (none, _) => ⟨.error, false, none⟩
  | (some srv, s) =>
    ⟨.completed, true,
      if s.headD false then some (handle_fin srv (create_fin_packet 0)).2
      else none⟩

/-! ## Helper lemmas: association lists, `advancePast`, sorting -/

theorem alookup_ainsert_self {α : Type} (d : List (Nat × α)) (k : Nat)
    (v : α) : alookup (ainsert d k v) k = some v := by
  induction d with
  | nil => simp [ainsert, alookup]
  | cons kv rest ih =>
    by_cases h : kv.1 = k
    · simp [ainsert, alookup, h]
    · simpa [ainsert, alookup, h] using ih

theorem ainsert_fresh {α : Type} (d : List (Nat × α)) (k : Nat) (v : α)
    (h : alookup d k = none) : ainsert d k v = d ++ [(k, v)] := by
  induction d with
  | nil => simp [ainsert]
  | cons kv rest ih =>
    rw [alookup] at h
    split_ifs at h with hk
    rw [ainsert, if_neg hk, ih h, List.cons_append]

theorem alookup_append_of_none {α : Type} (d1 d2 : List (Nat × α)) (k : Nat)
    (h : alookup d1 k = none) : alookup (d1 ++ d2) k = alookup d2 k := by
  induction d1 with
  | nil => simp [alookup]
  | cons kv rest ih =>
    rw [alookup] at h
    split_ifs at h with hk
    rw [List.cons_append, alookup, if_neg hk]
    exact ih h

theorem alookup_singleton_ne {α : Type} (k k' : Nat) (v : α) (h : ¬ k = k') :
    alookup [(k, v)] k' = none := by
  rw [alookup, if_neg h, alookup]

theorem keys_ainsert {α : Type} (d : List (Nat × α)) (k : Nat) (v : α) :
    keysOf (ainsert d k v) =
      if k ∈ keysOf d then keysOf d else keysOf d ++ [k] := by
  induction d with
  | nil => simp [ainsert, keysOf]
  | cons kv rest ih =>
    by_cases hk : kv.1 = k
    · subst hk
      simp [ainsert, keysOf]
    · have hne : k ≠ kv.1 := fun h => hk h.symm
      simp only [ainsert, if_neg hk, keysOf, List.map_cons,
        List.mem_cons] at ih ⊢
      rw [ih]
      by_cases hm : k ∈ List.map Prod.fst rest
      · rw [if_pos hm, if_pos (Or.inr hm)]
      · rw [if_neg hm, if_neg (by rintro (h | h); exact hne h; exact hm h),
          List.cons_append]

theorem mem_keys_ainsert {α : Type} (d : List (Nat × α)) (k : Nat) (v : α)
    (k' : Nat) (h : k' ∈ keysOf d) : k' ∈ keysOf (ainsert d k v) := by
  rw [keys_ainsert]
  split_ifs
  · exact h
  · exact List.mem_append_left _ h

theorem advancePast_spec (s : Finset Nat) (b : Nat) :
    b ≤ advancePast s b ∧ advancePast s b ∉ s := by
  induction b using advancePast.induct s with
  | case1 b hmem ih =>
    rw [advancePast]
    simp only [if_pos hmem]
    exact ⟨le_trans (Nat.le_succ b) ih.1, ih.2⟩
  | case2 b hmem =>
    rw [advancePast]
    simp only [if_neg hmem]
    exact ⟨le_refl b, hmem⟩

/-! ## Helper lemmas: congestion controller -/

theorem update_rtt_fields (c : CongestionController) (r : ℚ) :
    (update_rtt c r).cwnd = c.cwnd ∧ (update_rtt c r).ssthresh = c.ssthresh ∧
    (update_rtt c r).min_cwnd = c.min_cwnd ∧
    (update_rtt c r).max_cwnd = c.max_cwnd ∧
    (update_rtt c r).enabled = c.enabled := by
  unfold update_rtt
  by_cases h : c.srtt = 0 <;> simp [h]

theorem applyRtt_fields (c : CongestionController) (rtt : Option ℚ) :
    (applyRtt c rtt).cwnd = c.cwnd ∧ (applyRtt c rtt).ssthresh = c.ssthresh ∧
    (applyRtt c rtt).min_cwnd = c.min_cwnd ∧
    (applyRtt c rtt).max_cwnd = c.max_cwnd ∧
    (applyRtt c rtt).enabled = c.enabled := by
  rcases rtt with _ | r
  · exact ⟨rfl, rfl, rfl, rfl, rfl⟩
  · exact update_rtt_fields c r

theorem on_ack_cwnd (c : CongestionController) (rtt : Option ℚ)
    (he : ¬ c.enabled = false) :
    (on_ack_received c rtt).cwnd = (growCwnd (applyRtt c rtt)).cwnd := by
  simp [on_ack_received, he]

theorem growCwnd_inv {c : CongestionController} (h : CCInv c) :
    CCInv (growCwnd c) := by
  obtain ⟨e1, e2, e3, e4, e5, e6⟩ := h
  unfold growCwnd
  split_ifs with hlt
  · exact ⟨e1, e2, le_min (by linarith) (by rw [e2]; norm_num),
      by rw [e2]; exact min_le_right _ _, e5, e6⟩
  · have hpos : (0 : ℚ) < c.cwnd := by linarith
    have hdiv : (0 : ℚ) ≤ 1 / c.cwnd := by positivity
    exact ⟨e1, e2, le_min (by linarith) (by rw [e2]; norm_num),
      by rw [e2]; exact min_le_right _ _, e5, e6⟩

theorem CCInv.ack {c : CongestionController} (h : CCInv c) (r : Option ℚ) :
    CCInv (on_ack_received c r) := by
  by_cases he : c.enabled = false
  · rw [on_ack_received, if_pos he]; exact h
  · obtain ⟨a1, a2, a3, a4, a5⟩ := applyRtt_fields c r
    have h2 : CCInv (applyRtt c r) := by
      rw [CCInv, a1, a2, a3, a4]; exact h
    have h3 := growCwnd_inv h2
    rw [on_ack_received, if_neg he]
    exact h3

theorem ccReachable_inv {c : CongestionController} (h : CCReachable c) :
    CCInv c := by
  induction h with
  | start =>
    exact ⟨rfl, rfl, by norm_num [ccInit], by norm_num [ccInit],
      by norm_num [ccInit], by norm_num [ccInit]⟩
  | ack r hc ih => exact ih.ack r
  | @timeout c0 hc ih =>
    obtain ⟨e1, e2, e3, e4, e5, e6⟩ := ih
    rw [on_timeout]
    split_ifs with he
    · exact ⟨e1, e2, e3, e4, e5, e6⟩
    · exact ⟨e1, e2, by rw [e1], by rw [e1]; norm_num,
        le_max_right _ _, max_le (by linarith) (by norm_num)⟩
  | @tripleDup c0 hc ih =>
    obtain ⟨e1, e2, e3, e4, e5, e6⟩ := ih
    rw [on_triple_duplicate_ack]
    split_ifs with he
    · exact ⟨e1, e2, e3, e4, e5, e6⟩
    · have hm : max (c0.cwnd / 2) 2 ≤ 512 := max_le (by linarith) (by norm_num)
      have hm2 : (2 : ℚ) ≤ max (c0.cwnd / 2) 2 := le_max_right _ _
      exact ⟨e1, e2, by linarith, by linarith, hm2, by linarith⟩
  | sent hc ih => exact ih
  | @reset c0 hc ih =>
    obtain ⟨e1, e2, e3, e4, e5, e6⟩ := ih
    rw [ccReset]
    exact ⟨e1, e2, by rw [e1], by rw [e1]; norm_num, by norm_num, by norm_num⟩
  | setEnabled b hc ih => exact ih

/-! ## Helper lemmas: the stop-and-wait execution model -/

theorem handle_sw_step (i : Nat) (c : List Nat) (D : List (Nat × List Nat))
    (hD : alookup D i = none) (srv : ReceiverBuffer)
    (hsrv : srv = ⟨i, D⟩ ∨ srv = ⟨i + 1, D ++ [(i, c)]⟩) :
    (handle_stop_wait srv (create_data_packet i c 1)).1 =
      ⟨i + 1, D ++ [(i, c)]⟩ ∧
    (handle_stop_wait srv (create_data_packet i c 1)).2.2.1 = i + 1 := by
  rcases hsrv with h | h <;> subst h
  · simp only [handle_stop_wait, create_data_packet, if_pos rfl]
    exact ⟨by simp [ainsert_fresh D i c hD], rfl⟩
  · simp only [handle_stop_wait, create_data_packet]
    rw [if_neg (by simp)]
    exact ⟨rfl, rfl⟩

theorem send_chunk_sw_ok_aux (i : Nat) (c : List Nat)
    (D : List (Nat × List Nat)) (hD : alookup D i = none) :
    ∀ (n : Nat) (s : List Bool), s.length ≤ n →
      ∀ (retries : Nat) (srv : ReceiverBuffer),
      (srv = ⟨i, D⟩ ∨ srv = ⟨i + 1, D ++ [(i, c)]⟩) →
      ∀ srv2 s2, send_chunk_sw i c srv retries s = (some srv2, s2) →
        srv2 = ⟨i + 1, D ++ [(i, c)]⟩ := by
  intro n
  induction n with
  | zero =>
    intro s hs retries srv hsrv srv2 s2 h
    have hnil : s = [] := List.eq_nil_of_length_eq_zero (Nat.le_zero.mp hs)
    rw [hnil] at h
    simp [send_chunk_sw] at h
  | succ n ihn =>
    intro s hs retries srv hsrv srv2 s2 h
    rcases s with _ | ⟨d, rest⟩
    · simp [send_chunk_sw] at h
    · obtain ⟨h1, h2⟩ := handle_sw_step i c D hD srv hsrv
      have hrest : rest.length ≤ n := by
        simpa using hs
      rcases d with _ | _
      · simp only [send_chunk_sw, Bool.false_eq_true, if_false] at h
        split_ifs at h with hr
        · exact ihn rest hrest (retries + 1) srv hsrv srv2 s2 h
        · exact absurd h (by simp)
      · simp only [send_chunk_sw, if_true] at h
        rcases rest with _ | ⟨a, s3⟩
        · exact absurd h (by simp)
        · have hs3 : s3.length ≤ n := by
            simp at hrest
            omega
          rcases a with _ | _
          · simp only [Bool.false_eq_true, if_false] at h
            split_ifs at h with hr
            · rw [h1] at h
              exact ihn s3 hs3 (retries + 1) _ (Or.inr rfl) srv2 s2 h
            · exact absurd h (by simp)
          · simp only [if_true, h2, if_pos (Nat.lt_succ_self i)] at h
            rw [h1] at h
            obtain ⟨ha, hb⟩ := Prod.mk.injEq .. ▸ h
            exact (Option.some.injEq .. ▸ ha).symm

theorem send_chunk_sw_ok (i : Nat) (c : List Nat)
    (D : List (Nat × List Nat)) (hD : alookup D i = none)
    (s : List Bool) (retries : Nat) (srv : ReceiverBuffer)
    (hsrv : srv = ⟨i, D⟩ ∨ srv = ⟨i + 1, D ++ [(i, c)]⟩)
    (srv2 : ReceiverBuffer) (s2 : List Bool)
    (h : send_chunk_sw i c srv retries s = (some srv2, s2)) :
    srv2 = ⟨i + 1, D ++ [(i, c)]⟩ :=
  send_chunk_sw_ok_aux i c D hD s.length s le_rfl retries srv hsrv srv2 s2 h

theorem run_chunks_ok :
    ∀ (cs : List (List Nat)) (i : Nat) (D : List (Nat × List Nat))
      (s : List Bool) (srv2 : ReceiverBuffer) (s2 : List Bool),
      (∀ k, i ≤ k → alookup D k = none) →
      run_chunks cs i ⟨i, D⟩ s = (some srv2, s2) →
      srv2 = ⟨i + cs.length, D ++ tagFrom i cs⟩ := by
  intro cs
  induction cs with
  | nil =>
    intro i D s srv2 s2 hD h
    simp only [run_chunks, Prod.mk.injEq, Option.some.injEq] at h
    obtain ⟨ha, hb⟩ := h
    rw [← ha]
    simp [tagFrom]
  | cons c cs ih =>
    intro i D s srv2 s2 hD h
    rw [run_chunks] at h
    rcases hsc : send_chunk_sw i c ⟨i, D⟩ 0 s with ⟨o, sr⟩
    rw [hsc] at h
    rcases o with _ | srv1
    · simp at h
    · have h1 : srv1 = ⟨i + 1, D ++ [(i, c)]⟩ :=
        send_chunk_sw_ok i c D (hD i le_rfl) s 0 _ (Or.inl rfl) _ _ hsc
      rw [h1] at h
      have hD2 : ∀ k, i + 1 ≤ k → alookup (D ++ [(i, c)]) k = none := by
        intro k hk
        rw [alookup_append_of_none _ _ _ (hD k (by omega)),
          alookup_singleton_ne _ _ _ (by omega)]
      have hres := ih (i + 1) (D ++ [(i, c)]) sr srv2 s2 hD2 h
      rw [hres]
      simp [tagFrom, List.append_assoc]
      omega

theorem keys_tagFrom : ∀ (cs : List (List Nat)) (j : Nat),
    keysOf (tagFrom j cs) = List.range' j cs.length := by
  intro cs
  induction cs with
  | nil => intro j; simp [tagFrom, keysOf]
  | cons c cs ih =>
    intro j
    rw [tagFrom, List.length_cons, List.range'_succ j cs.length 1]
    simp only [keysOf, List.map_cons]
    rw [show List.map Prod.fst (tagFrom (j + 1) cs) =
      keysOf (tagFrom (j + 1) cs) from rfl, ih (j + 1)]

theorem map_alookup_tagFrom : ∀ (cs : List (List Nat)) (j : Nat),
    (List.range' j cs.length).map
      (fun k => (alookup (tagFrom j cs) k).getD []) = cs := by
  intro cs
  induction cs with
  | nil => intro j; simp
  | cons c cs ih =>
    intro j
    rw [List.length_cons, List.range'_succ j cs.length 1, List.map_cons]
    congr 1
    · rw [tagFrom, alookup, if_pos rfl, Option.getD_some]
    · rw [List.map_congr_left, ih (j + 1)]
      intro k hk
      have hk2 := (List.mem_range'_1).mp hk
      rw [tagFrom, alookup, if_neg (by omega)]

theorem get_ordered_tagFrom (cs : List (List Nat)) (j e : Nat) :
    get_ordered_data ⟨e, tagFrom j cs⟩ = cs.flatten := by
  have hsorted : List.Sorted (· ≤ ·) (List.range' j cs.length) :=
    (List.pairwise_lt_range' j cs.length).imp (fun h => le_of_lt h)
  unfold get_ordered_data
  simp only
  rw [show keysOf (tagFrom j cs) = List.range' j cs.length from
    keys_tagFrom cs j, List.Sorted.insertionSort_eq hsorted,
    map_alookup_tagFrom cs j]

/-! ## Claim C1 -/

set_option maxRecDepth 40000 in
/-- C1 (counterexample). The claim says that whenever the sender reaches
Completed, the receiver's delivered stream equals the input byte-for-byte.
On the one-chunk stream `[97]` with the DATA and its ACK delivered but the
FIN dropped, the stop-and-wait sender still transitions to Completed
(`_finish_transfer` treats a missing FIN-ACK as a mere warning), yet the
server never processes a FIN and never commits any file, so nothing equal
to the input is delivered. -/
theorem c1_counterexample :
    (run_stop_wait [[97]] [true, true, false]).senderState = .completed ∧
    (run_stop_wait [[97]] [true, true, false]).file ≠ some [[97]].flatten := by
  decide

/-- C1 (amended). For every chunked input stream and every delivery
schedule, whenever the stop-and-wait transfer commits a file on the
receiver (the server processed the sender's FIN), the committed bytes are
exactly the concatenation of the input chunks, and the sender reports
Completed. -/
theorem c1_theorem (chunks : List (List Nat)) (sched : List Bool)
    (f : List Nat) (hf : (run_stop_wait chunks sched).file = some f) :
    f = chunks.flatten ∧
    (run_stop_wait chunks sched).senderState = .completed := by
  unfold run_stop_wait at hf ⊢
  rcases hrc : run_chunks chunks 0 ⟨0, []⟩ sched with ⟨o, s2⟩
  rw [hrc] at hf
  rcases o with _ | srv
  · simp at hf
  · dsimp only at hf ⊢
    refine ⟨?_, rfl⟩
    split_ifs at hf with hh
    · have hsrv : srv = ⟨0 + chunks.length, [] ++ tagFrom 0 chunks⟩ :=
        run_chunks_ok chunks 0 [] sched srv s2 (fun k hk => rfl) hrc
      rw [List.nil_append] at hsrv
      rw [hsrv] at hf
      have hfile : (handle_fin (⟨0 + chunks.length, tagFrom 0 chunks⟩ :
          ReceiverBuffer) (create_fin_packet 0)).2 = chunks.flatten := by
        rw [handle_fin]
        exact get_ordered_tagFrom chunks 0 _
      rw [hfile] at hf
      exact (Option.some.inj hf).symm

set_option maxRecDepth 40000 in
/-- C1 (witness). A lossless two-byte transfer commits exactly the input. -/
theorem c1_witness :
    run_stop_wait [[104, 105]] [true, true, true] =
      ⟨.completed, true, some [104, 105]⟩ ∧
    [104, 105] = [[104, 105]].flatten :=
  ⟨by decide, (c1_theorem [[104, 105]] [true, true, true] [104, 105]
    (by decide)).1⟩

/-! ## Claim C2 -/

/-- C2. Codec round-trip: for every wire-representable packet (fields in
the ranges of `!IIBHH`, payload at most 1024 bytes), decoding the encoded
bytes yields exactly the packet as it stands after encoding (Python's
`to_bytes` first overwrites `self.checksum`, so `decode(encode(p)) == p`
holds), checksum verification succeeds on the decoded result, and when the
stored checksum was already current the decoded packet equals `p`
verbatim. -/
theorem c2_theorem (p : Packet) (hw : p.Wf) :
    from_bytes (p.to_bytes).2 = DecodeResult.ok p.to_bytes.1 ∧
    (p.to_bytes.1).verify_checksum = true ∧
    (p.checksum = p.calculate_checksum → p.to_bytes.1 = p) := by
  obtain ⟨h1, h2, h3, h4, h5, h6⟩ := hw
  have hc : p.calculate_checksum < 65536 :=
    lt_of_le_of_lt Nat.and_le_right (by norm_num)
  unfold MAX_DATA_SIZE at h5
  refine ⟨?_, ?_, ?_⟩
  · unfold Packet.to_bytes from_bytes
    simp only [be32, be16, rd32, rd16, rd8, List.cons_append, List.nil_append,
      List.getD_cons_zero, List.getD_cons_succ, List.length_cons, List.drop,
      List.length_append, List.length_nil, List.append_eq,
      HEADER_SIZE, MAX_DATA_SIZE]
    rw [if_neg (by omega), if_neg (by omega)]
    simp only [DecodeResult.ok.injEq, Packet.mk.injEq, List.nil_append]
    exact ⟨by omega, by omega, by omega, by omega, trivial, by omega⟩
  · simp [Packet.to_bytes, Packet.verify_checksum, Packet.calculate_checksum]
  · intro h
    simp [Packet.to_bytes, ← h]

set_option maxRecDepth 8000 in
/-- C2 (witness). Round-trip at a concrete two-byte DATA packet. -/
theorem c2_witness :
    from_bytes ((create_data_packet 0 [104, 105] 1).to_bytes).2 =
      DecodeResult.ok ((create_data_packet 0 [104, 105] 1).to_bytes).1 :=
  (c2_theorem (create_data_packet 0 [104, 105] 1) (by decide)).1

/-! ## Claim C3 -/

set_option maxRecDepth 8000 in
/-- C3 (counterexample). The claim says decoding succeeds for every
datagram of at least 13 bytes and in particular never raises beyond that.
On a 1038-byte datagram (payload 1025 > 1024) `Packet.from_bytes` neither
returns a packet nor returns the short-datagram `None`: the dataclass
`__post_init__` raises `ValueError`, which the `except struct.error`
clause does not catch, so the exception escapes (`.error`). -/
theorem c3_counterexample :
    13 ≤ (List.replicate 1038 (0 : Nat)).length ∧
    (∀ p, from_bytes (List.replicate 1038 (0 : Nat)) ≠ .ok p) ∧
    from_bytes (List.replicate 1038 (0 : Nat)) = .error := by
  have he : from_bytes (List.replicate 1038 (0 : Nat)) = .error := by decide
  refine ⟨by simp, ?_, he⟩
  intro p h
  rw [he] at h
  exact DecodeResult.noConfusion h

/-- C3 (amended). `Packet.from_bytes` returns the `MalformedPacket` `None`
exactly for datagrams shorter than the 13-byte header; for 13 ≤ length ≤
13 + 1024 it returns a packet whose payload is everything past byte 13;
for longer datagrams the oversized-payload `ValueError` escapes
uncaught. -/
theorem c3_theorem (d : List Nat) :
    (from_bytes d = .malformed ↔ d.length < 13) ∧
    (13 ≤ d.length → d.length ≤ 1037 →
      ∃ p, from_bytes d = .ok p ∧ p.data = d.drop 13) ∧
    (1037 < d.length → from_bytes d = .error) := by
  have hd : (d.drop 13).length = d.length - 13 := List.length_drop 13 d
  refine ⟨⟨?_, ?_⟩, ?_, ?_⟩
  · intro h
    by_contra hlen
    unfold from_bytes HEADER_SIZE MAX_DATA_SIZE at h
    rw [if_neg (by omega)] at h
    by_cases hp : 1024 < d.length - 13 <;> simp [hp] at h
  · intro h
    simp [from_bytes, HEADER_SIZE, h]
  · intro h1 h2
    refine ⟨⟨rd32 d 0, rd32 d 4, rd8 d 8, rd16 d 9, d.drop 13, rd16 d 11⟩,
      ?_, rfl⟩
    unfold from_bytes HEADER_SIZE MAX_DATA_SIZE
    rw [if_neg (by omega), if_neg (by omega)]
  · intro h
    unfold from_bytes HEADER_SIZE MAX_DATA_SIZE
    rw [if_neg (by omega), if_pos (by omega)]

/-- C3 (witness). A 20-byte datagram decodes to a packet carrying the 7
bytes past the header. -/
theorem c3_witness :
    ∃ p, from_bytes (List.replicate 20 (0 : Nat)) = .ok p ∧
      p.data = (List.replicate 20 (0 : Nat)).drop 13 :=
  (c3_theorem (List.replicate 20 (0 : Nat))).2.1 (by simp) (by simp)

/-! ## Claim C4 -/

set_option maxRecDepth 4000 in
/-- C4 (counterexample). The claim says every protocol mode aborts with
Error once a packet reaches the retransmission cap of 10. In
selective-repeat (and go-back-N) mode the timer path calls
`_retransmit_packet`, which consults no cap: from a Transferring state
whose only outstanding packet already has 10 retransmissions, the packet
is simply retransmitted an 11th time, the state stays Transferring, and no
failure is reported. -/
theorem c4_counterexample :
    (retransmit_packet ⟨.transferring, .selective_repeat,
        [(0, ⟨create_data_packet 0 [7] 10, 0, 10, false⟩)], 0, 0⟩
        0 1 true).1.state = .transferring ∧
    (retransmit_packet ⟨.transferring, .selective_repeat,
        [(0, ⟨create_data_packet 0 [7] 10, 0, 10, false⟩)], 0, 0⟩
        0 1 true).1.state ≠ .error ∧
    alookup (retransmit_packet ⟨.transferring, .selective_repeat,
        [(0, ⟨create_data_packet 0 [7] 10, 0, 10, false⟩)], 0, 0⟩
        0 1 true).1.sent_packets 0 =
      some ⟨create_data_packet 0 [7] 10, 1, 11, false⟩ ∧
    (retransmit_packet ⟨.transferring, .selective_repeat,
        [(0, ⟨create_data_packet 0 [7] 10, 0, 10, false⟩)], 0, 0⟩
        0 1 true).2 = some (create_data_packet 0 [7] 10) := by
  decide

/-- C4 (amended). Only stop-and-wait enforces the cap of 10: ten
consecutive delivery failures on a chunk abort the transfer with
`send_file` returning False and the sender in Error. In the sliding-window
modes `_retransmit_packet` retransmits regardless of the packet's
retransmission count, never changing the sender state. -/
theorem c4_theorem :
    (∀ c cs r, run_stop_wait (c :: cs)
        (false :: false :: false :: false :: false :: false :: false :: false ::
          false :: false :: r) = ⟨.error, false, none⟩) ∧
    (∀ st seq info t d, alookup st.sent_packets seq = some info →
      (retransmit_packet st seq t d).1.state = st.state ∧
      alookup (retransmit_packet st seq t d).1.sent_packets seq =
        some { info with retransmissions := info.retransmissions + 1,
                         send_time := t }) := by
  constructor
  · intro c cs r
    simp [run_stop_wait, run_chunks, send_chunk_sw]
  · intro st seq info t d h
    simp [retransmit_packet, h, alookup_ainsert_self]

set_option maxRecDepth 4000 in
/-- C4 (witness). The stop-and-wait abort at a concrete stream, and the
capless sliding-window retransmission at a concrete state. -/
theorem c4_witness :
    run_stop_wait [[1]]
      [false, false, false, false, false, false, false, false, false, false] =
      ⟨.error, false, none⟩ ∧
    (retransmit_packet ⟨.transferring, .go_back_n,
        [(3, ⟨create_data_packet 3 [] 4, 0, 10, false⟩)], 0, 0⟩
        3 2 false).1.state = .transferring :=
  ⟨c4_theorem.1 [1] [] [],
    (c4_theorem.2 ⟨.transferring, .go_back_n,
      [(3, ⟨create_data_packet 3 [] 4, 0, 10, false⟩)], 0, 0⟩
      3 ⟨create_data_packet 3 [] 4, 0, 10, false⟩ 2 false (by decide)).1⟩

/-! ## Claim C5 -/

/-- C5 (counterexample). The claim says a lost first SYN is retransmitted
within one RTO and the handshake still completes, with HandshakeFailed
only after bounded retries are exhausted. In the code `connect` sends the
SYN exactly once: when nothing arrives before the socket timeout (the SYN
was lost), it immediately returns failure in state Error — one SYN sent,
no retransmission, no completed handshake. -/
theorem c5_counterexample :
    connect 10 .timeout = ⟨1, [], false, .error⟩ ∧
    (connect 10 .timeout).syns_sent = 1 := by decide

/-- C5 (amended). `connect` transmits the SYN exactly once and performs no
retries: a receive timeout yields immediate failure in Error; the
handshake completes only when a SYN-ACK arrives in reply to that single
SYN; any other arrival yields failure with the state left Connecting. -/
theorem c5_theorem (w : Nat) (rcv : RecvOutcome) :
    (connect w rcv).syns_sent = 1 ∧
    (rcv = .timeout → connect w rcv = ⟨1, [], false, .error⟩) ∧
    ((connect w rcv).success = true ↔
      ∃ p, rcv = .recv (some p) ∧ (p.is_syn && p.is_ack) = true) := by
  rcases rcv with _ | op
  · simp [connect]
  · rcases op with _ | p
    · simp [connect]
    · by_cases h : (p.is_syn && p.is_ack) = true
      · simp [connect, h]
        simpa using h
      · simp [connect, h]
        intro hs
        simp [hs] at h
        simpa using h

/-- C5 (witness). The timeout case at window 10. -/
theorem c5_witness :
    connect 10 .timeout = ⟨1, [], false, .error⟩ :=
  (c5_theorem 10 .timeout).2.1 rfl

/-! ## Claim C6 -/

/-- C6 (counterexample). The claim says a DATA packet with
`seq > expected_seq` is silently discarded with no ACK. The server's
stop-and-wait handler re-ACKs `expected_seq` on every out-of-order
arrival, higher sequences included: a packet with seq 5 against
`expected_seq = 0` leaves the buffer unchanged but sends
`ACK 0`. -/
theorem c6_counterexample :
    (handle_stop_wait ⟨0, []⟩ (create_data_packet 5 [1] 1)).2.2.2 ≠ [] ∧
    (handle_stop_wait ⟨0, []⟩ (create_data_packet 5 [1] 1)).2.2.2 =
      [create_ack_packet 0 0 1] ∧
    (handle_stop_wait ⟨0, []⟩ (create_data_packet 5 [1] 1)).1 = ⟨0, []⟩ := by
  decide

/-- C6 (amended). Stop-and-wait receive: on `seq = expected_seq` the
payload is stored, `expected_seq` increments, and an ACK with the new
`expected_seq` is sent; on any other seq (duplicate below or gap above)
the buffer is unchanged and an ACK with the current `expected_seq` is sent
— higher sequences are discarded but still ACKed, not silent. -/
theorem c6_theorem (b : ReceiverBuffer) (p : Packet) :
    (p.seq_no = b.expected_seq →
      (handle_stop_wait b p).1.expected_seq = b.expected_seq + 1 ∧
      alookup (handle_stop_wait b p).1.received_data p.seq_no = some p.data ∧
      (handle_stop_wait b p).2.2.2 =
        [create_ack_packet 0 (b.expected_seq + 1) 1]) ∧
    (p.seq_no ≠ b.expected_seq →
      (handle_stop_wait b p).1 = b ∧
      (handle_stop_wait b p).2.2.2 = [create_ack_packet 0 b.expected_seq 1]) := by
  constructor
  · intro h
    simp [handle_stop_wait, h, alookup_ainsert_self]
  · intro h
    simp [handle_stop_wait, h]

/-- C6 (witness). In-order receipt of seq 0 and discarded-but-ACKed
receipt of seq 5, at concrete states. -/
theorem c6_witness :
    (handle_stop_wait ⟨0, []⟩ (create_data_packet 0 [7] 1)).1.expected_seq
      = 1 ∧
    (handle_stop_wait ⟨0, []⟩ (create_data_packet 5 [1] 1)).1 =
      (⟨0, []⟩ : ReceiverBuffer) :=
  ⟨((c6_theorem ⟨0, []⟩ (create_data_packet 0 [7] 1)).1 rfl).1,
    ((c6_theorem ⟨0, []⟩ (create_data_packet 5 [1] 1)).2 (by decide)).1⟩

/-! ## Claim C7 -/

/-- C7 (counterexample). The claim says every operation preserves
`acked ⊆ [base, next_seq)` with the acked set trimmed as base advances.
`SRWindow.mark_acked` never removes elements: acknowledging sequence 0 in
the window `base = 0, next_seq = 1` advances `base` to 1 but leaves 0 in
the acked set, so an element of the set lies below `base`. -/
theorem c7_counterexample :
    0 ∈ (SRWindow.mark_acked ⟨0, 1, 10, ∅⟩ 0).acked ∧
    (SRWindow.mark_acked ⟨0, 1, 10, ∅⟩ 0).base = 1 ∧
    ¬ (∀ x ∈ (SRWindow.mark_acked ⟨0, 1, 10, ∅⟩ 0).acked,
        (SRWindow.mark_acked ⟨0, 1, 10, ∅⟩ 0).base ≤ x) := by
  have hb : (SRWindow.mark_acked ⟨0, 1, 10, ∅⟩ 0).base = 1 := by
    show advancePast {0} 0 = 1
    rw [advancePast, if_pos (by decide), advancePast, if_neg (by decide)]
  refine ⟨by simp [SRWindow.mark_acked], hb, ?_⟩
  intro hall
  have h0 := hall 0 (by simp [SRWindow.mark_acked])
  rw [hb] at h0
  omega

/-- C7 (amended). `SRWindow.mark_acked` does preserve the weaker
invariant actually maintained by the code: after every call `base` is not
an element of the acked set and has not moved backwards, the acked set
only grows (it is never trimmed), the acknowledged sequence is recorded,
and `next_seq` is untouched. -/
theorem c7_theorem (w : SRWindow) (s : Nat) :
    (w.mark_acked s).base ∉ (w.mark_acked s).acked ∧
    w.base ≤ (w.mark_acked s).base ∧
    w.acked ⊆ (w.mark_acked s).acked ∧
    s ∈ (w.mark_acked s).acked ∧
    (w.mark_acked s).next_seq = w.next_seq := by
  unfold SRWindow.mark_acked
  refine ⟨(advancePast_spec _ _).2, (advancePast_spec _ _).1, ?_, ?_, rfl⟩
  · exact Finset.subset_insert s w.acked
  · exact Finset.mem_insert_self s w.acked

/-! ## Claim C8 -/

/-- C8. For every reachable state of the congestion controller with
control enabled, a call to `on_ack_received` (with or without an RTT
sample) strictly increases `cwnd` when `cwnd < ssthresh` (Slow Start) and
otherwise increases `cwnd` by at most `1/cwnd` (Congestion Avoidance). -/
theorem c8_theorem (c : CongestionController) (r : Option ℚ)
    (hr : CCReachable c) (he : c.enabled = true) :
    (c.cwnd < c.ssthresh → c.cwnd < (on_ack_received c r).cwnd) ∧
    (c.ssthresh ≤ c.cwnd →
      (on_ack_received c r).cwnd ≤ c.cwnd + 1 / c.cwnd) := by
  obtain ⟨e1, e2, e3, e4, e5, e6⟩ := ccReachable_inv hr
  have hen : ¬ c.enabled = false := by simp [he]
  obtain ⟨a1, a2, a3, a4, a5⟩ := applyRtt_fields c r
  rw [on_ack_cwnd c r hen]
  constructor
  · intro hlt
    rw [growCwnd, if_pos (by rw [a1, a2]; exact hlt)]
    show c.cwnd < min ((applyRtt c r).cwnd + 1) (applyRtt c r).max_cwnd
    rw [a1, a4, e2]
    exact lt_min (by linarith) (by linarith)
  · intro hge
    rw [growCwnd, if_neg (by rw [a1, a2]; exact not_lt.mpr hge)]
    show min ((applyRtt c r).cwnd + 1 / (applyRtt c r).cwnd)
      (applyRtt c r).max_cwnd ≤ c.cwnd + 1 / c.cwnd
    rw [a1, a4]
    exact min_le_left _ _

/-- C8 (witness). From the freshly constructed controller (Slow Start,
`cwnd = 1 < ssthresh = 64`), one ACK strictly increases `cwnd`. -/
theorem c8_witness :
    (ccInit true).cwnd < (on_ack_received (ccInit true) none).cwnd :=
  (c8_theorem (ccInit true) none CCReachable.start rfl).1 (by norm_num [ccInit])

/-! ## Claim C9 -/

set_option maxRecDepth 8000 in
/-- C9 (counterexample). The claim says no field of a packet changes after
construction. `Packet.to_bytes` overwrites the `checksum` field: encoding
a freshly constructed DATA packet (checksum 0) leaves a packet different
from the original, its checksum now the computed CRC. -/
theorem c9_counterexample :
    (Packet.to_bytes (create_data_packet 0 [] 1)).1 ≠
      create_data_packet 0 [] 1 ∧
    (Packet.to_bytes (create_data_packet 0 [] 1)).1.checksum ≠
      (create_data_packet 0 [] 1).checksum := by decide

/-- C9 (amended). The only mutation is the checksum overwrite inside
`to_bytes`, which is idempotent and leaves every other field unchanged;
in particular re-encoding a once-transmitted packet (what
`_retransmit_packet` does via the stored `PacketInfo.packet`) emits
exactly the same bytes as the original transmission. -/
theorem c9_theorem (p : Packet) :
    (p.to_bytes.1).to_bytes.2 = p.to_bytes.2 ∧
    (p.to_bytes.1).to_bytes.1 = p.to_bytes.1 ∧
    p.to_bytes.1.seq_no = p.seq_no ∧ p.to_bytes.1.ack_no = p.ack_no ∧
    p.to_bytes.1.flags = p.flags ∧ p.to_bytes.1.window = p.window ∧
    p.to_bytes.1.data = p.data :=
  ⟨rfl, rfl, rfl, rfl, rfl, rfl, rfl⟩

/-! ## Claim C10 -/

/-- C10. When the server handles a checksum-valid FIN it unconditionally
commits a file: the FIN-ACK carries `seq + 1`, and the bytes written are
the buffered chunks concatenated in strictly ascending sequence order —
every buffered chunk is included (chunks delivered in order are retained,
`add_packet` never removes a key) and absent sequence numbers are simply
skipped, so a premature FIN commits a partial, gap-elided file. -/
theorem c10_theorem (b : ReceiverBuffer) (p : Packet)
    (hfin : p.is_fin = true) (hnd : (keysOf b.received_data).Nodup) :
    (handle_fin b p).1 = create_fin_ack_packet 0 (p.seq_no + 1) ∧
    (∃ ks : List Nat, ks.Perm (keysOf b.received_data) ∧
      List.Sorted (· < ·) ks ∧
      (handle_fin b p).2 =
        (ks.map (fun k => (alookup b.received_data k).getD [])).flatten) ∧
    (∀ seq data k, k ∈ keysOf b.received_data →
      k ∈ keysOf (add_packet b seq data).1.received_data) := by
  refine ⟨rfl, ?_, ?_⟩
  · refine ⟨(keysOf b.received_data).insertionSort (· ≤ ·),
      List.perm_insertionSort _ _, ?_, rfl⟩
    have hs : List.Sorted (· ≤ ·)
        ((keysOf b.received_data).insertionSort (· ≤ ·)) :=
      List.sorted_insertionSort _ _
    have hn : ((keysOf b.received_data).insertionSort (· ≤ ·)).Nodup :=
      ((List.perm_insertionSort (· ≤ ·)
        (keysOf b.received_data)).nodup_iff).mpr hnd
    exact hs.lt_of_le hn
  · intro seq data k hk
    unfold add_packet
    split_ifs with h1 h2 h3
    · exact hk
    · exact mem_keys_ainsert _ _ _ _ hk
    · exact mem_keys_ainsert _ _ _ _ hk
    · exact hk

/-- C10 (witness). A FIN against a gapped buffer (chunks 0 and 2 present,
1 missing, `expected_seq = 1`) still produces the FIN-ACK — the commit is
unconditional. -/
theorem c10_witness :
    (handle_fin ⟨1, [(2, [50]), (0, [48])]⟩ (create_fin_packet 3)).1 =
      create_fin_ack_packet 0 4 :=
  (c10_theorem ⟨1, [(2, [50]), (0, [48])]⟩ (create_fin_packet 3)
    (by decide) (by decide)).1

end CTP
